import Mathlib

/-!
Shallow embedding of the tdr DNS client (Go) wire-format codec and resolver
step logic, with theorems checking the natural-language specification
against the code.

Modelling conventions:
- Go byte strings are List Nat (each entry is one byte, 0..255).
- Go uint16/uint32 arithmetic is Nat with explicit mod where Go truncates.
- Functions that index a slice out of range in Go (a runtime panic) return
  the outcome Res.oob; loops that can run forever are given explicit fuel
  and return Res.spin when the fuel runs out, so that divergence of the Go
  loop shows up as Res.spin for every fuel value.
-/

namespace DNS

/-- Result of running a piece of Go decoding code: a value, an
out-of-bounds slice access (a Go runtime panic), or fuel exhaustion of a
loop (the Go loop would still be running). -/
inductive Res (α : Type) where
  | ok : α → Res α
  | oob : Res α
  | spin : Res α
deriving DecidableEq, Repr

/-- Embeds queryByteMask from helpers.go: a byte mask with the n rightmost
bits set, computed as (1 shifted left by n) minus 1, truncated to a byte. -/
def queryByteMask (n : Nat) : Nat := ((1 <<< n) - 1) % 256

/-- Big-endian recombination of two bytes into a 16-bit value, as written
throughout the codec: first byte shifted left by 8, or-ed with the second. -/
def merge16 (hi lo : Nat) : Nat := (hi <<< 8) ||| lo

/-- Big-endian byte encoding of a uint16 value, as produced by
binary.Write with binary.BigEndian for a 2-byte value. -/
def u16bytes (x : Nat) : List Nat := [x / 256 % 256, x % 256]

/-- Embeds the Header struct of header.go (all bit fields and counts are
kept as Nat; the Go types are byte for the flag fields and uint16 for ID
and the four counts). -/
structure Header where
  ID : Nat
  QR : Nat
  OpCode : Nat
  AA : Nat
  TC : Nat
  RD : Nat
  RA : Nat
  Z : Nat
  RCode : Nat
  QDCount : Nat
  ANCount : Nat
  NSCount : Nat
  ARCount : Nat
deriving DecidableEq, Repr

/-- The zero Header, the state of the receiver for a fresh Msg value. -/
def hZero : Header := ⟨0, 0, 0, 0, 0, 0, 0, 0, 0, 0, 0, 0, 0⟩

/-- OpCodeQuery constant from header.go (iota value 0). -/
def OpCodeQuery : Nat := 0

/-- ClassIN constant from rr.go (iota value 1). -/
def ClassIN : Nat := 1

/-- TypeA constant from rr.go (iota value 1). -/
def TypeA : Nat := 1

/-- TypeNS constant from rr.go (iota value 2). -/
def TypeNS : Nat := 2

/-- TypeCNAME constant from rr.go (iota value 5). -/
def TypeCNAME : Nat := 5

/-- Embeds Header.Pack: six big-endian 16-bit sections; the second merges
QR, OpCode, AA, TC, RD, RA and RCode by shifting each into position and
or-ing (the Z field is never written). The bytes.Buffer writes in the Go
code cannot fail, so pack is a total function on the byte list. -/
def Header.pack (h : Header) : List Nat :=
  let s := ((h.QR <<< 15) ||| (h.OpCode <<< 11) ||| (h.AA <<< 10) |||
            (h.TC <<< 9) ||| (h.RD <<< 8) ||| (h.RA <<< 7) ||| h.RCode) % 65536
  u16bytes h.ID ++ u16bytes s ++ u16bytes h.QDCount ++ u16bytes h.ANCount ++
    u16bytes h.NSCount ++ u16bytes h.ARCount

/-- Embeds Header.Unpack (the current two-argument version taking the full
message and an offset): reads 12 bytes at off, extracting the bit fields
of the second section by shift and mask. The receiver h supplies the
fields that are never assigned (only Z). Indexing past the end of msg in
Go panics, modelled as Res.oob. Returns the unpacked header and the byte
count 12. -/
def Header.unpack (h : Header) (msg : List Nat) (off : Nat) : Res (Header × Nat) :=
  if msg.length < off + 12 then .oob
  else
    let b2 := msg.getD (off + 2) 0
    let b3 := msg.getD (off + 3) 0
    .ok ({ h with
      ID := merge16 (msg.getD off 0) (msg.getD (off + 1) 0)
      QR := (b2 >>> 7) &&& queryByteMask 1
      OpCode := (b2 >>> 3) &&& queryByteMask 4
      AA := (b2 >>> 2) &&& queryByteMask 1
      TC := (b2 >>> 1) &&& queryByteMask 1
      RD := (b2 >>> 0) &&& queryByteMask 1
      RA := (b3 >>> 7) &&& queryByteMask 1
      RCode := (b3 >>> 0) &&& queryByteMask 4
      QDCount := merge16 (msg.getD (off + 4) 0) (msg.getD (off + 5) 0)
      ANCount := merge16 (msg.getD (off + 6) 0) (msg.getD (off + 7) 0)
      NSCount := merge16 (msg.getD (off + 8) 0) (msg.getD (off + 9) 0)
      ARCount := merge16 (msg.getD (off + 10) 0) (msg.getD (off + 11) 0) }, 12)

/-- Embeds the pointer-offset computation on line 103 of helpers.go:
the low 6 bits of the first pointer byte or-ed (without any shift) with
the full second pointer byte. -/
def codePointerTarget (cb b2 : Nat) : Nat := (cb &&& queryByteMask 6) ||| b2

/-- Modelled from the spec: the intended pointer target, the 14 low bits of
the two pointer bytes, i.e. the low 6 bits of the first byte as the high
order bits merged with the full second byte. -/
def specPointerTarget (cb b2 : Nat) : Nat := (cb % 64) * 256 + b2

/-- Embeds the unbounded for-loop of unpackDomainName in helpers.go. The
state is the current label offset offl, the accumulated name bytes nameb
(each label is followed by a dot, byte 46), and the number of pointers
followed ptrn. Reading a byte beyond msg is a Go panic (Res.oob); the
loop has no iteration bound in Go, so it takes fuel and reports Res.spin
when the fuel is exhausted. -/
def udnLoop (msg : List Nat) : Nat → Nat → List Nat → Nat → Res (List Nat × Nat × Nat)
  | 0, _, _, _ => .spin
  | fuel + 1, offl, nameb, ptrn =>
    match msg[offl]? with
    | none => .oob
    | some cb =>
      if cb >>> 6 = 3 then
        match msg[offl + 1]? with
        | none => .oob
        | some b2 => udnLoop msg fuel (codePointerTarget cb b2) nameb (ptrn + 1)
      else
        if cb = 0 then .ok (nameb, offl + 1, ptrn)
        else
          if msg.length < offl + 1 + cb then .oob
          else udnLoop msg fuel (offl + 1 + cb)
                 (nameb ++ (msg.drop (offl + 1)).take cb ++ [46]) ptrn

/-- Embeds unpackDomainName from helpers.go: runs the label loop from off
and then fixes up the returned next offset and byte count: when at least
one pointer was followed, the next offset is off plus the 2-byte pointer
size and the reported byte count is 2, regardless of how many bytes the
labels before the pointer occupied. Returns (name bytes, next offset,
bytes read). -/
def unpackDomainName (fuel : Nat) (msg : List Nat) (off : Nat) :
    Res (List Nat × Nat × Nat) :=
  match udnLoop msg fuel off [] 0 with
  | .ok (nameb, offl, ptrn) =>
    if 0 < ptrn then .ok (nameb, off + 2, 2) else .ok (nameb, offl, offl - off)
  | .oob => .oob
  | .spin => .spin

/-- Embeds the Question struct of question.go; QName is the Go string held
as a byte list. -/
structure Question where
  QName : List Nat
  QType : Nat
  QClass : Nat
deriving DecidableEq, Repr

/-- Embeds the label loop of Question.Pack: for each label produced by
splitting QName on dots, stop at the first empty label (the Go break for
the root label), otherwise write a length byte (the Go byte conversion
truncates the length to 8 bits) followed by the label bytes; finally
write the zero terminator. -/
def packLabels : List (List Nat) → List Nat
  | [] => [0]
  | l :: ls => if l = [] then [0] else (l.length % 256) :: (l ++ packLabels ls)

/-- Embeds Question.Pack: the QName split on the dot byte and encoded as
length-prefixed labels with a zero terminator, followed by QType and
QClass as big-endian 16-bit sections. The bytes.Buffer writes in the Go
code cannot fail, so pack is a total function on the byte list. -/
def Question.pack (q : Question) : List Nat :=
  packLabels (q.QName.splitOn 46) ++ u16bytes (q.QType % 65536) ++
    u16bytes (q.QClass % 65536)

/-- Embeds Question.Unpack: decode the domain name at off, then read QType
and QClass as two big-endian 16-bit sections at the next offset returned
by the name decoder. Returns the question and the total byte count (name
bytes read plus 4). -/
def Question.unpack (fuel : Nat) (msg : List Nat) (off : Nat) :
    Res (Question × Nat) :=
  match unpackDomainName fuel msg off with
  | .ok (name, offn, n) =>
    if msg.length < offn + 4 then .oob
    else
      .ok ({ QName := name
             QType := merge16 (msg.getD offn 0) (msg.getD (offn + 1) 0)
             QClass := merge16 (msg.getD (offn + 2) 0) (msg.getD (offn + 3) 0) },
           n + 4)
  | .oob => .oob
  | .spin => .spin

/-- Embeds the RR struct of rr.go (current version with the custom
RDataUnpacked field). The Go field Type is called Typ here because Type is
reserved in Lean. -/
structure RR where
  Name : List Nat
  Typ : Nat
  Class : Nat
  TTL : Nat
  RDLength : Nat
  RData : List Nat
  RDataUnpacked : List Nat
deriving DecidableEq, Repr

/-- Embeds RR.Unpack from rr.go: decode NAME, then TYPE, CLASS, TTL,
RDLENGTH as big-endian sections, take RDLENGTH bytes of RDATA, and decode
RDATA depending on TYPE: for TypeA the stdlib net.IP String rendering
(abstracted as the function argument ipStr), for TypeCNAME and TypeNS a
domain-name decode at the RDATA offset of the full message; all other
types leave RDataUnpacked empty. Returns the record and the byte count
name-bytes + 10 + RDLENGTH. -/
def RR.unpack (ipStr : List Nat → List Nat) (fuel : Nat) (msg : List Nat)
    (off : Nat) : Res (RR × Nat) :=
  match unpackDomainName fuel msg off with
  | .ok (name, offn, n) =>
    if msg.length < offn + 10 then .oob
    else
      let typ := merge16 (msg.getD offn 0) (msg.getD (offn + 1) 0)
      let cls := merge16 (msg.getD (offn + 2) 0) (msg.getD (offn + 3) 0)
      let ttl := ((msg.getD (offn + 4) 0) <<< 24) ||| ((msg.getD (offn + 5) 0) <<< 16) |||
                 ((msg.getD (offn + 6) 0) <<< 8) ||| (msg.getD (offn + 7) 0)
      let rdlen := merge16 (msg.getD (offn + 8) 0) (msg.getD (offn + 9) 0)
      let start := offn + 10
      if msg.length < start + rdlen then .oob
      else
        let rdata := (msg.drop start).take rdlen
        let post : Res (List Nat) :=
          if typ = TypeA then .ok (ipStr rdata)
          else if typ = TypeCNAME then
            match unpackDomainName fuel msg start with
            | .ok (nm, _, _) => .ok nm
            | .oob => .oob
            | .spin => .spin
          else if typ = TypeNS then
            match unpackDomainName fuel msg start with
            | .ok (nm, _, _) => .ok nm
            | .oob => .oob
            | .spin => .spin
          else .ok []
        match post with
        | .ok rdu =>
          .ok ({ Name := name, Typ := typ, Class := cls, TTL := ttl,
                 RDLength := rdlen, RData := rdata, RDataUnpacked := rdu },
               n + 4 + 4 + 2 + rdlen)
        | .oob => .oob
        | .spin => .spin
  | .oob => .oob
  | .spin => .spin

/-- Embeds the Msg struct of msg.go; the Header field is the embedded Go
struct, the three record sections are slices of RR. -/
structure Msg where
  Header : Header
  Question : Question
  Answer : List RR
  Authority : List RR
  Additional : List RR
deriving DecidableEq, Repr

/-- Embeds one of the three count-driven record loops of Msg.Unpack:
unpack count records starting at off, appending each to the section list
and advancing the offset by the returned byte count; any failure aborts. -/
def rrLoop (ipStr : List Nat → List Nat) (fuel : Nat) (msg : List Nat) :
    Nat → Nat → Res (List RR × Nat)
  | 0, off => .ok ([], off)
  | count + 1, off =>
    match RR.unpack ipStr fuel msg off with
    | .ok (rr, n) =>
      match rrLoop ipStr fuel msg count (off + n) with
      | .ok (rs, off2) => .ok (rr :: rs, off2)
      | .oob => .oob
      | .spin => .spin
    | .oob => .oob
    | .spin => .spin

/-- Embeds Msg.Unpack on a fresh Msg value (the receiver the Go callers
use): header at offset 0 on the zero receiver, one question at offset 12,
then ANCount answers, NSCount authority records and ARCount additional
records driven by the header counts, each loop starting from the empty
section of the fresh receiver. Returns the message and the final offset. -/
def Msg.unpack (ipStr : List Nat → List Nat) (fuel : Nat) (msg : List Nat) :
    Res (Msg × Nat) :=
  match Header.unpack hZero msg 0 with
  | .ok (h, n1) =>
    match Question.unpack fuel msg n1 with
    | .ok (q, n2) =>
      match rrLoop ipStr fuel msg h.ANCount (n1 + n2) with
      | .ok (ans, off3) =>
        match rrLoop ipStr fuel msg h.NSCount off3 with
        | .ok (auth, off4) =>
          match rrLoop ipStr fuel msg h.ARCount off4 with
          | .ok (add, off5) =>
            .ok ({ Header := h, Question := q, Answer := ans,
                   Authority := auth, Additional := add }, off5)
          | .oob => .oob
          | .spin => .spin
        | .oob => .oob
        | .spin => .spin
      | .oob => .oob
      | .spin => .spin
    | .oob => .oob
    | .spin => .spin
  | .oob => .oob
  | .spin => .spin

/-- Embeds Msg.SetQuery from msg.go, with the generated random message ID
passed in explicitly (generateMsgID is an external randomness source).
Only ID, QR, OpCode, RD, QDCount and the question are assigned on the
receiver; every other header field keeps its previous value. -/
def Msg.setQuery (m : Msg) (id : Nat) (name : List Nat) (qt : Nat) : Msg :=
  { m with
    Header := { m.Header with
      ID := id, QR := 0, OpCode := OpCodeQuery, RD := 1, QDCount := 1 }
    Question := { QName := name, QType := qt, QClass := ClassIN } }

/-- Embeds getAnswer from resolver.go: the RDataUnpacked of the first
answer record, or the empty string when the answer section is empty. -/
def getAnswer (m : Msg) : List Nat :=
  match m.Answer with
  | [] => []
  | an :: _ => an.RDataUnpacked

/-- Embeds getAuthority from resolver.go: the RDataUnpacked of the first
authority record, or the empty string when the section is empty. -/
def getAuthority (m : Msg) : List Nat :=
  match m.Authority with
  | [] => []
  | ns :: _ => ns.RDataUnpacked

/-- Embeds getAdditional from resolver.go: net.ParseIP applied to the
RDataUnpacked of the first additional record (none both when the section
is empty and when the stdlib parser, abstracted as parseIP, returns nil). -/
def getAdditional (parseIP : List Nat → Option (List Nat)) (m : Msg) :
    Option (List Nat) :=
  match m.Additional with
  | [] => none
  | ar :: _ => parseIP ar.RDataUnpacked

/-- Outcome of one iteration of the Resolve loop in resolver.go for a
decoded response message. -/
inductive StepResult where
  | success : List Nat → StepResult
  | referral : List Nat → StepResult
  | recurseAuthority : List Nat → StepResult
  | noAnswer : StepResult
deriving DecidableEq, Repr

/-- Embeds the decision sequence of one iteration of Resolve in
resolver.go: return the first answer when its decoded RDATA is a nonempty
string, otherwise follow a glue IP from the first additional record,
otherwise recursively resolve the first authority name when nonempty,
otherwise fail with no answer. -/
def resolveStep (parseIP : List Nat → Option (List Nat)) (m : Msg) : StepResult :=
  if getAnswer m ≠ [] then .success (getAnswer m)
  else
    match getAdditional parseIP m with
    | some ip => .referral ip
    | none =>
      if getAuthority m ≠ [] then .recurseAuthority (getAuthority m)
      else .noAnswer

/-- Splitting a 16-bit value into its big-endian bytes and recombining
them with the shift-and-or of the codec gives the value back. -/
theorem merge16_split (x : Nat) (hx : x < 65536) :
    merge16 (x / 256 % 256) (x % 256) = x := by
  have h2 : (2 : Nat) ^ 8 = 256 := by norm_num
  unfold merge16
  rw [Nat.shiftLeft_eq, Nat.mul_comm, ← Nat.mul_add_lt_is_or (by omega)]
  omega

/-- C4: for every Header whose fields are within their declared bit-widths
(QR, AA, TC, RD, RA one bit each; OpCode and RCode at most 15; Z zero;
ID and the four counts 16-bit), unpacking the 12 bytes produced by
Header.Pack recovers the header exactly. -/
theorem c4_header_pack_unpack_roundtrip (h : Header)
    (hQR : h.QR ≤ 1) (hOp : h.OpCode ≤ 15) (hAA : h.AA ≤ 1) (hTC : h.TC ≤ 1)
    (hRD : h.RD ≤ 1) (hRA : h.RA ≤ 1) (hZ : h.Z = 0) (hRC : h.RCode ≤ 15)
    (hID : h.ID < 65536) (hQD : h.QDCount < 65536) (hAN : h.ANCount < 65536)
    (hNS : h.NSCount < 65536) (hAR : h.ARCount < 65536) :
    Header.unpack hZero (Header.pack h) 0 = .ok (h, 12) := by
  obtain ⟨id, qr, op, aa, tc, rd, ra, z, rc, qd, an, ns, ar⟩ := h
  simp only at hQR hOp hAA hTC hRD hRA hZ hRC hID hQD hAN hNS hAR
  subst hZ
  have p15 : (2 : Nat) ^ 15 = 32768 := by norm_num
  have p11 : (2 : Nat) ^ 11 = 2048 := by norm_num
  have p10 : (2 : Nat) ^ 10 = 1024 := by norm_num
  have p9 : (2 : Nat) ^ 9 = 512 := by norm_num
  have p8 : (2 : Nat) ^ 8 = 256 := by norm_num
  have p7 : (2 : Nat) ^ 7 = 128 := by norm_num
  have p4 : (2 : Nat) ^ 4 = 16 := by norm_num
  have qm1 : queryByteMask 1 = 1 := by decide
  have qm4 : queryByteMask 4 = 15 := by decide
  have e : (qr <<< 15 ||| op <<< 11 ||| aa <<< 10 ||| tc <<< 9 ||| rd <<< 8 |||
      ra <<< 7 ||| rc) =
      32768 * qr + 2048 * op + 1024 * aa + 512 * tc + 256 * rd + 128 * ra + rc := by
    rw [Nat.shiftLeft_eq, Nat.shiftLeft_eq, Nat.shiftLeft_eq, Nat.shiftLeft_eq,
        Nat.shiftLeft_eq, Nat.shiftLeft_eq]
    rw [show qr * 2 ^ 15 = 2 ^ 15 * qr from Nat.mul_comm _ _]
    rw [← Nat.mul_add_lt_is_or (show op * 2 ^ 11 < 2 ^ 15 by omega) qr]
    rw [show 2 ^ 15 * qr + op * 2 ^ 11 = 2 ^ 11 * (16 * qr + op) by ring]
    rw [← Nat.mul_add_lt_is_or (show aa * 2 ^ 10 < 2 ^ 11 by omega) (16 * qr + op)]
    rw [show 2 ^ 11 * (16 * qr + op) + aa * 2 ^ 10 =
        2 ^ 10 * (32 * qr + 2 * op + aa) by ring]
    rw [← Nat.mul_add_lt_is_or (show tc * 2 ^ 9 < 2 ^ 10 by omega) _]
    rw [show 2 ^ 10 * (32 * qr + 2 * op + aa) + tc * 2 ^ 9 =
        2 ^ 9 * (64 * qr + 4 * op + 2 * aa + tc) by ring]
    rw [← Nat.mul_add_lt_is_or (show rd * 2 ^ 8 < 2 ^ 9 by omega) _]
    rw [show 2 ^ 9 * (64 * qr + 4 * op + 2 * aa + tc) + rd * 2 ^ 8 =
        2 ^ 8 * (128 * qr + 8 * op + 4 * aa + 2 * tc + rd) by ring]
    rw [← Nat.mul_add_lt_is_or (show ra * 2 ^ 7 < 2 ^ 8 by omega) _]
    rw [show 2 ^ 8 * (128 * qr + 8 * op + 4 * aa + 2 * tc + rd) + ra * 2 ^ 7 =
        2 ^ 7 * (256 * qr + 16 * op + 8 * aa + 4 * tc + 2 * rd + ra) by ring]
    rw [← Nat.mul_add_lt_is_or (show rc < 2 ^ 7 by omega) _]
    omega
  simp only [Header.pack, u16bytes, Header.unpack, hZero, List.cons_append,
    List.nil_append, e]
  norm_num [List.getD]
  refine ⟨merge16_split _ hID, ?_, ?_, ?_, ?_, ?_, ?_, ?_, merge16_split _ hQD,
    merge16_split _ hAN, merge16_split _ hNS, merge16_split _ hAR⟩
  · rw [qm1, Nat.and_one_is_mod, Nat.shiftRight_eq_div_pow, p7]; omega
  · rw [qm4, show (15 : Nat) = 2 ^ 4 - 1 by norm_num,
        Nat.and_pow_two_sub_one_eq_mod, Nat.shiftRight_eq_div_pow, p4,
        show (2 : Nat) ^ 3 = 8 by norm_num]
    omega
  · rw [qm1, Nat.and_one_is_mod, Nat.shiftRight_eq_div_pow,
        show (2 : Nat) ^ 2 = 4 by norm_num]
    omega
  · rw [qm1, Nat.and_one_is_mod, Nat.shiftRight_eq_div_pow,
        show (2 : Nat) ^ 1 = 2 by norm_num]
    omega
  · rw [qm1, Nat.and_one_is_mod]; omega
  · rw [qm1, Nat.and_one_is_mod, Nat.shiftRight_eq_div_pow, p7]; omega
  · rw [qm4, show (15 : Nat) = 2 ^ 4 - 1 by norm_num,
        Nat.and_pow_two_sub_one_eq_mod, p4]
    omega

/-- Witness for C4: the round-trip evaluated at the header used by
TestHeaderPackUnpack. -/
theorem c4_witness :
    Header.unpack hZero (Header.pack ⟨1, 1, 0, 1, 1, 1, 0, 0, 0, 1, 2, 1, 4⟩) 0 =
      .ok (⟨1, 1, 0, 1, 1, 1, 0, 0, 0, 1, 2, 1, 4⟩, 12) :=
  c4_header_pack_unpack_roundtrip ⟨1, 1, 0, 1, 1, 1, 0, 0, 0, 1, 2, 1, 4⟩
    (by decide) (by decide) (by decide) (by decide) (by decide) (by decide)
    (by decide) (by decide) (by decide) (by decide) (by decide) (by decide)
    (by decide)

/-- C10: on every input of at least 12 bytes Header.Unpack succeeds, and
the Z field of the unpacked header is 0 whatever the three reserved wire
bits hold: the unpacking never reads, validates or preserves them. -/
theorem c10_z_bits_ignored (msg : List Nat) (hlen : 12 ≤ msg.length) :
    ∃ h : Header, Header.unpack hZero msg 0 = .ok (h, 12) ∧ h.Z = 0 := by
  simp only [Header.unpack]
  rw [if_neg (by omega)]
  exact ⟨_, rfl, rfl⟩

/-- Witness for C10: a 12-byte wire header with every bit set, in
particular the three reserved Z bits, unpacks with Z equal to 0. -/
theorem c10_witness :
    12 ≤ (List.replicate 12 255 : List Nat).length ∧
    ∃ h : Header, Header.unpack hZero (List.replicate 12 255) 0 = .ok (h, 12) ∧
      h.Z = 0 :=
  ⟨by decide, c10_z_bits_ignored (List.replicate 12 255) (by decide)⟩

/-- Message for C1: a name consisting of label a at offset 1, 252 zero
filler bytes, a name consisting of label b at offset 256, and the pointer
bytes 0xC1 0x00 at offset 259. The 14-bit pointer value of those two
bytes is 256 (where label b lives); the code computes 1 (where label a
lives). -/
def msgC1 : List Nat :=
  [0] ++ [1, 97, 0] ++ List.replicate 252 0 ++ [1, 98, 0] ++ [193, 0]

set_option maxRecDepth 4000 in
/-- C1 (refuted; code bug): the code merges the pointer bytes with a
bitwise or and no shift, so for the pointer bytes 0xC1 0x00 it jumps to
offset 1 instead of the 14-bit target 256: decoding at the pointer yields
the name a. stored at offset 1, not the name b. stored at offset 256. -/
theorem c1_pointer_high_bits_dropped :
    codePointerTarget 193 0 = 1 ∧ specPointerTarget 193 0 = 256 ∧
    unpackDomainName 10 msgC1 259 = .ok ([97, 46], 261, 2) ∧
    unpackDomainName 10 msgC1 256 = .ok ([98, 46], 259, 3) := by decide

/-- Message for C6: the labels of the name co. stored at offset 20, and at
offset 40 a second name made of label dan followed by a 2-byte pointer to
offset 20. -/
def msgC6 : List Nat :=
  List.replicate 20 0 ++ [2, 99, 111, 0] ++ List.replicate 16 0 ++
    [3, 100, 97, 110, 192, 20]

/-- C6: decoding the second name (label dan plus pointer to offset 20)
yields the byte string of dan.co. and reports a consumed byte length of 2,
the pointer contribution, not the length of the full expanded name (the
next offset is 42 = 40 + 2). -/
theorem c6_compressed_name_decode :
    unpackDomainName 16 msgC6 40 = .ok ([100, 97, 110, 46, 99, 111, 46], 42, 2) := by
  decide

/-- C2 counterexample: decoding the empty byte string, a truncation of
every message at boundary 0, makes Msg.Unpack index out of bounds (a Go
runtime panic), not return a typed error. -/
theorem c2_counterexample :
    Msg.unpack (fun _ => []) 100 [] = .oob := by decide

/-- Message for C2: a 12-byte all-zero header followed by the question
name bytes 0xC0 0x0C, a compression pointer whose code-computed target is
its own offset 12. -/
def msgSpin : List Nat := List.replicate 12 0 ++ [192, 12]

/-- On msgSpin the label loop started at offset 12 rereads the same
pointer forever: it exhausts every amount of fuel. -/
theorem udnLoop_selfptr (fuel : Nat) (nameb : List Nat) (ptrn : Nat) :
    udnLoop msgSpin fuel 12 nameb ptrn = .spin := by
  induction fuel generalizing nameb ptrn with
  | zero => rfl
  | succ f ih =>
    have step : udnLoop msgSpin (f + 1) 12 nameb ptrn =
        udnLoop msgSpin f 12 nameb (ptrn + 1) := rfl
    rw [step]
    exact ih _ _

/-- C2 (corrected): Msg.Unpack is neither total nor panic-free. On the
empty input it reads out of bounds in the header decoder (a Go panic)
instead of returning an error, and on a message whose question name is a
self-referencing compression pointer the name decoder loops forever: for
every fuel bound the loop is still running. No truncation or malformed
name checks exist in the code. -/
theorem c2_unpack_panics_and_loops :
    (∀ (ipStr : List Nat → List Nat) (fuel : Nat),
      Msg.unpack ipStr fuel [] = .oob) ∧
    (∀ fuel : Nat, unpackDomainName fuel msgSpin 12 = .spin) ∧
    (∀ (ipStr : List Nat → List Nat) (fuel : Nat),
      Msg.unpack ipStr fuel msgSpin = .spin) := by
  refine ⟨fun ipStr fuel => rfl, fun fuel => ?_, fun ipStr fuel => ?_⟩
  · simp only [unpackDomainName, udnLoop_selfptr]
  · have hq : Question.unpack fuel msgSpin 12 = .spin := by
      simp only [Question.unpack, unpackDomainName, udnLoop_selfptr]
    simp only [Msg.unpack,
      show Header.unpack hZero msgSpin 0 = .ok (hZero, 12) from by decide, hq]

/-- C8 counterexample: packing a question whose name is a single 64-byte
label (longer than the 63-byte limit) succeeds and produces wire bytes;
no EncodingError exists in the code. -/
theorem c8_counterexample :
    Question.pack ⟨List.replicate 64 97, 1, 1⟩ =
      64 :: (List.replicate 64 97 ++ [0, 0, 1, 0, 1]) := by decide

/-- C8 (corrected): Question.Pack performs no length validation. For a
name consisting of one label of any positive length n, even beyond the
63-byte label limit or the 255-byte name limit, it produces output bytes,
writing n mod 256 as the length byte, and never fails. -/
theorem c8_pack_never_fails (n qt qc : Nat) (hn : 0 < n) :
    Question.pack ⟨List.replicate n 97, qt, qc⟩ =
      (n % 256) :: (List.replicate n 97 ++
        ([0] ++ u16bytes (qt % 65536) ++ u16bytes (qc % 65536))) := by
  have hsplit : (List.replicate n 97).splitOn 46 = [List.replicate n 97] := by
    apply List.splitOnP_eq_single
    intro x hx
    simp only [List.eq_of_mem_replicate hx]
    decide
  have hne : List.replicate n 97 ≠ [] := by
    simp [List.replicate_eq_nil_iff]
    omega
  simp [Question.pack, hsplit, packLabels, hne]

/-- Witness for C8: the 64-byte label case, past the 63-byte limit. -/
theorem c8_witness :
    0 < 64 ∧
    Question.pack ⟨List.replicate 64 97, 1, 1⟩ =
      (64 % 256) :: (List.replicate 64 97 ++
        ([0] ++ u16bytes (1 % 65536) ++ u16bytes (1 % 65536))) :=
  ⟨by decide, c8_pack_never_fails 64 1 1 (by decide)⟩

/-- Message for C9: a message whose header already has a nonzero answer
count when SetQuery is invoked on it. -/
def mC9 : Msg := ⟨{ hZero with ANCount := 7 }, ⟨[], 0, 0⟩, [], [], []⟩

/-- C9 counterexample: SetQuery invoked on a message whose ANCount is 7
leaves ANCount at 7, so not every header field outside QR, OPCODE, RD,
QDCOUNT is zero in the produced query. -/
theorem c9_counterexample :
    (Msg.setQuery mC9 1 [100] 1).Header.ANCount ≠ 0 := by decide

/-- C9 (corrected): SetQuery sets ID, QR=0, OPCODE=QUERY, RD=1, QDCOUNT=1
and the question with the given name, type and class IN; it leaves AA,
TC, RA, Z, RCODE, ANCOUNT, NSCOUNT and ARCOUNT unchanged on the receiver
(so they are zero exactly when the receiver was fresh, as in the
resolver, which calls it on a new zero message). -/
theorem c9_setquery_fields (m : Msg) (id : Nat) (name : List Nat) (qt : Nat) :
    (Msg.setQuery m id name qt).Header.QR = 0 ∧
    (Msg.setQuery m id name qt).Header.OpCode = OpCodeQuery ∧
    (Msg.setQuery m id name qt).Header.RD = 1 ∧
    (Msg.setQuery m id name qt).Header.QDCount = 1 ∧
    (Msg.setQuery m id name qt).Header.ID = id ∧
    (Msg.setQuery m id name qt).Question = ⟨name, qt, ClassIN⟩ ∧
    (Msg.setQuery m id name qt).Header.AA = m.Header.AA ∧
    (Msg.setQuery m id name qt).Header.TC = m.Header.TC ∧
    (Msg.setQuery m id name qt).Header.RA = m.Header.RA ∧
    (Msg.setQuery m id name qt).Header.Z = m.Header.Z ∧
    (Msg.setQuery m id name qt).Header.RCode = m.Header.RCode ∧
    (Msg.setQuery m id name qt).Header.ANCount = m.Header.ANCount ∧
    (Msg.setQuery m id name qt).Header.NSCount = m.Header.NSCount ∧
    (Msg.setQuery m id name qt).Header.ARCount = m.Header.ARCount :=
  ⟨rfl, rfl, rfl, rfl, rfl, rfl, rfl, rfl, rfl, rfl, rfl, rfl, rfl, rfl⟩

/-- Message for C3: a decoded response whose answer section is nonempty
but whose first (and only) answer record has an empty decoded RDATA
string, as the RR decoder produces for types it leaves undecoded (here an
SOA record, type 6). -/
def mC3 : Msg := ⟨hZero, ⟨[], 0, 0⟩, [⟨[], 6, 1, 0, 0, [], []⟩], [], []⟩

/-- C3 counterexample: the answer section of mC3 is nonempty, yet the
resolution step does not terminate as a success with the first answer
record decoded RDATA: it falls through to the no-answer failure, because
the code tests the decoded RDATA string for nonemptiness, not the answer
section. -/
theorem c3_counterexample :
    mC3.Answer ≠ [] ∧ resolveStep (fun _ => none) mC3 = .noAnswer := by decide

/-- C3 (corrected): a resolution step terminates as a success returning
the first answer record decoded RDATA, regardless of the authority and
additional sections and of the IP parser, provided that decoded RDATA is
a nonempty string; when it is empty the step instead falls through to the
additional and authority handling. -/
theorem c3_answer_step (parseIP : List Nat → Option (List Nat)) (m : Msg)
    (rr : RR) (rest : List RR) (hans : m.Answer = rr :: rest)
    (hne : rr.RDataUnpacked ≠ []) :
    resolveStep parseIP m = .success rr.RDataUnpacked := by
  have hga : getAnswer m = rr.RDataUnpacked := by simp [getAnswer, hans]
  simp [resolveStep, hga, hne]

/-- Message for the C3 witness: one A answer record with decoded RDATA
1.2.3.4, together with nonempty authority and additional sections that
the step must ignore. -/
def mW3 : Msg :=
  ⟨hZero, ⟨[], 0, 0⟩,
    [⟨[], 1, 1, 0, 4, [1, 2, 3, 4], [49, 46, 50, 46, 51, 46, 52]⟩],
    [⟨[], 2, 1, 0, 0, [], [110, 115]⟩],
    [⟨[], 1, 1, 0, 4, [9, 9, 9, 9], [57, 46, 57, 46, 57, 46, 57]⟩]⟩

/-- Witness for C3: on mW3 the step succeeds with the answer record
decoded RDATA even though the authority and additional sections are
nonempty. -/
theorem c3_witness :
    mW3.Answer = ⟨[], 1, 1, 0, 4, [1, 2, 3, 4], [49, 46, 50, 46, 51, 46, 52]⟩ ::
      [] ∧
    resolveStep (fun s => some s) mW3 = .success [49, 46, 50, 46, 51, 46, 52] :=
  ⟨rfl, c3_answer_step (fun s => some s) mW3 _ [] rfl (by decide)⟩

/-- A record loop that succeeds returns exactly as many records as the
count that drove it. -/
theorem rrLoop_length (ipStr : List Nat → List Nat) (fuel : Nat) (msg : List Nat) :
    ∀ (count off : Nat) (rs : List RR) (off2 : Nat),
      rrLoop ipStr fuel msg count off = .ok (rs, off2) → rs.length = count := by
  intro count
  induction count with
  | zero =>
    intro off rs off2 h
    simp only [rrLoop, Res.ok.injEq, Prod.mk.injEq] at h
    simp [← h.1]
  | succ c ih =>
    intro off rs off2 h
    simp only [rrLoop] at h
    cases hr : RR.unpack ipStr fuel msg off with
    | ok p =>
      obtain ⟨rr, n⟩ := p
      simp only [hr] at h
      cases hl : rrLoop ipStr fuel msg c (off + n) with
      | ok q =>
        obtain ⟨rs2, o2⟩ := q
        simp only [hl, Res.ok.injEq, Prod.mk.injEq] at h
        rw [← h.1, List.length_cons, ih _ _ _ hl]
      | oob => simp only [hl] at h; exact Res.noConfusion h
      | spin => simp only [hl] at h; exact Res.noConfusion h
    | oob => simp only [hr] at h; exact Res.noConfusion h
    | spin => simp only [hr] at h; exact Res.noConfusion h

/-- C7: whenever Msg.Unpack succeeds on a byte string, starting from a
fresh message with empty record sections, the decoded message has exactly
ANCount answers, NSCount authority records and ARCount additional
records. -/
theorem c7_section_counts (ipStr : List Nat → List Nat) (fuel : Nat)
    (bytes : List Nat) (m : Msg) (off : Nat)
    (h : Msg.unpack ipStr fuel bytes = .ok (m, off)) :
    m.Answer.length = m.Header.ANCount ∧
    m.Authority.length = m.Header.NSCount ∧
    m.Additional.length = m.Header.ARCount := by
  simp only [Msg.unpack] at h
  cases hh : Header.unpack hZero bytes 0 with
  | ok ph =>
    obtain ⟨hd, n1⟩ := ph
    simp only [hh] at h
    cases hq : Question.unpack fuel bytes n1 with
    | ok pq =>
      obtain ⟨q, n2⟩ := pq
      simp only [hq] at h
      cases ha : rrLoop ipStr fuel bytes hd.ANCount (n1 + n2) with
      | ok pa =>
        obtain ⟨ans, off3⟩ := pa
        simp only [ha] at h
        cases hn : rrLoop ipStr fuel bytes hd.NSCount off3 with
        | ok pn =>
          obtain ⟨auth, off4⟩ := pn
          simp only [hn] at h
          cases hr : rrLoop ipStr fuel bytes hd.ARCount off4 with
          | ok pr =>
            obtain ⟨add, off5⟩ := pr
            simp only [hr, Res.ok.injEq, Prod.mk.injEq] at h
            rw [← h.1]
            exact ⟨rrLoop_length _ _ _ _ _ _ _ ha,
                   rrLoop_length _ _ _ _ _ _ _ hn,
                   rrLoop_length _ _ _ _ _ _ _ hr⟩
          | oob => simp only [hr] at h; exact Res.noConfusion h
          | spin => simp only [hr] at h; exact Res.noConfusion h
        | oob => simp only [hn] at h; exact Res.noConfusion h
        | spin => simp only [hn] at h; exact Res.noConfusion h
      | oob => simp only [ha] at h; exact Res.noConfusion h
      | spin => simp only [ha] at h; exact Res.noConfusion h
    | oob => simp only [hq] at h; exact Res.noConfusion h
    | spin => simp only [hq] at h; exact Res.noConfusion h
  | oob => simp only [hh] at h; exact Res.noConfusion h
  | spin => simp only [hh] at h; exact Res.noConfusion h

/-- Byte string for the C7 witness: header with ANCount 1, a root-name
question of type A class IN, and one A answer record with 4 bytes of
RDATA. -/
def msgW7 : List Nat :=
  [0, 0, 0, 0, 0, 0, 0, 1, 0, 0, 0, 0] ++ [0, 0, 1, 0, 1] ++
    [0, 0, 1, 0, 1, 0, 0, 0, 0, 0, 4, 1, 2, 3, 4]

/-- Decoded message for the C7 witness. -/
def mW7 : Msg :=
  ⟨{ hZero with ANCount := 1 }, ⟨[], 1, 1⟩, [⟨[], 1, 1, 0, 4, [1, 2, 3, 4], []⟩],
    [], []⟩

/-- Witness for C7: a successful decode of a message carrying one answer
record, whose section lengths match the header counts. -/
theorem c7_witness :
    Msg.unpack (fun _ => []) 5 msgW7 = .ok (mW7, 32) ∧
    (mW7.Answer.length = mW7.Header.ANCount ∧
     mW7.Authority.length = mW7.Header.NSCount ∧
     mW7.Additional.length = mW7.Header.ARCount) :=
  ⟨by decide, c7_section_counts (fun _ => []) 5 msgW7 mW7 32 (by decide)⟩

/-- Wire encoding of a list of labels: a length byte and the label bytes
for each label, terminated by the zero byte. This is the reference shape
used by the round-trip proofs; packLabels agrees with it on valid labels. -/
def encodeLabels : List (List Nat) → List Nat
  | [] => [0]
  | l :: ls => l.length :: (l ++ encodeLabels ls)

/-- The name string the decoder builds from a list of labels: each label
followed by a dot byte. -/
def nameDots : List (List Nat) → List Nat
  | [] => []
  | l :: ls => l ++ [46] ++ nameDots ls

/-- An encoded label sequence is never empty (it ends with the zero byte). -/
theorem encodeLabels_len_pos (L : List (List Nat)) : 0 < (encodeLabels L).length := by
  cases L <;> simp [encodeLabels]

/-- Running the label loop of the name decoder over an encoded label
sequence placed after a prefix and before arbitrary trailing bytes reads
exactly the labels: it returns the accumulated name with dots, stops
right after the zero terminator, and follows no pointer. -/
theorem udnLoop_encode (post : List Nat) (L : List (List Nat)) :
    ∀ (pre acc : List Nat) (ptrn fuel : Nat),
      L.length + 1 ≤ fuel →
      (∀ l ∈ L, l ≠ [] ∧ l.length ≤ 63) →
      udnLoop (pre ++ (encodeLabels L ++ post)) fuel pre.length acc ptrn =
        .ok (acc ++ nameDots L, pre.length + (encodeLabels L).length, ptrn) := by
  induction L with
  | nil =>
    intro pre acc ptrn fuel hfuel _
    obtain ⟨f, rfl⟩ : ∃ f, fuel = f + 1 := ⟨fuel - 1, by omega⟩
    have hcb : (pre ++ (encodeLabels [] ++ post))[pre.length]? = some 0 := by
      rw [List.getElem?_append_right (Nat.le_refl _)]
      simp [encodeLabels]
    simp only [udnLoop, hcb]
    rw [if_neg (by decide), if_pos trivial]
    simp [nameDots, encodeLabels]
  | cons l ls ih =>
    intro pre acc ptrn fuel hfuel hlab
    obtain ⟨hl_ne, hl_63⟩ := hlab l (by simp)
    obtain ⟨f, rfl⟩ : ∃ f, fuel = f + 1 := ⟨fuel - 1, by omega⟩
    have hcb : (pre ++ (encodeLabels (l :: ls) ++ post))[pre.length]? =
        some l.length := by
      rw [List.getElem?_append_right (Nat.le_refl _)]
      simp [encodeLabels]
    have hnotptr : ¬ (l.length >>> 6 = 3) := by
      rw [Nat.shiftRight_eq_div_pow]
      have h64 : (2 : Nat) ^ 6 = 64 := by norm_num
      omega
    have hlen0 : ¬ (l.length = 0) := by simpa using hl_ne
    have hbound : ¬ ((pre ++ (encodeLabels (l :: ls) ++ post)).length <
        pre.length + 1 + l.length) := by
      have := encodeLabels_len_pos ls
      simp [encodeLabels, List.length_append]
      omega
    have hdrop : (pre ++ (encodeLabels (l :: ls) ++ post)).drop (pre.length + 1) =
        l ++ (encodeLabels ls ++ post) := by
      rw [show pre ++ (encodeLabels (l :: ls) ++ post) =
            (pre ++ [l.length]) ++ (l ++ (encodeLabels ls ++ post)) by
          simp [encodeLabels],
        show pre.length + 1 = (pre ++ [l.length]).length by simp]
      exact List.drop_left _ _
    simp only [udnLoop, hcb]
    rw [if_neg hnotptr, if_neg hlen0, if_neg hbound, hdrop, List.take_left]
    have hrec := ih (pre ++ l.length :: l) (acc ++ l ++ [46]) ptrn f
      (by simp at hfuel ⊢; omega) (fun x hx => hlab x (by simp [hx]))
    rw [show (pre ++ l.length :: l) ++ (encodeLabels ls ++ post) =
          pre ++ (encodeLabels (l :: ls) ++ post) by
        simp [encodeLabels]] at hrec
    rw [show pre.length + 1 + l.length = (pre ++ l.length :: l).length by
        simp; omega]
    rw [hrec]
    simp only [Res.ok.injEq, Prod.mk.injEq]
    refine ⟨by simp [nameDots, List.append_assoc], by simp [encodeLabels]; omega, trivial⟩

/-- On labels that are nonempty and at most 63 bytes, the Pack label loop
produces exactly the reference wire encoding. -/
theorem packLabels_eq_encode (L : List (List Nat))
    (h : ∀ l ∈ L, l ≠ [] ∧ l.length ≤ 63) : packLabels L = encodeLabels L := by
  induction L with
  | nil => rfl
  | cons l ls ih =>
    obtain ⟨h1, h2⟩ := h l (by simp)
    simp only [packLabels, encodeLabels, if_neg h1]
    rw [Nat.mod_eq_of_lt (by omega), ih (fun x hx => h x (by simp [hx]))]

/-- For a nonempty label list, the decoded dotted name is the dot-joined
name with one trailing root dot appended. -/
theorem nameDots_intercalate (L : List (List Nat)) (h : L ≠ []) :
    nameDots L = [46].intercalate L ++ [46] := by
  induction L with
  | nil => exact absurd rfl h
  | cons l ls ih =>
    cases ls with
    | nil => simp [nameDots, List.intercalate]
    | cons l2 ls2 =>
      rw [show nameDots (l :: l2 :: ls2) = l ++ [46] ++ nameDots (l2 :: ls2) from rfl]
      rw [ih (by simp)]
      rw [show ([46] : List Nat).intercalate (l :: l2 :: ls2) =
            l ++ ([46] ++ [46].intercalate (l2 :: ls2)) by
          simp [List.intercalate, List.intersperse_cons_cons]]
      simp [List.append_assoc]

/-- Reading past a prefix of an appended list lands in the suffix. -/
theorem getD_append_right (l₁ l₂ : List Nat) (i d : Nat) :
    (l₁ ++ l₂).getD (l₁.length + i) d = l₂.getD i d := by
  induction l₁ with
  | nil => simp
  | cons a as ih =>
    rw [show ((a :: as).length + i) = (as.length + i) + 1 by simp; omega]
    simpa using ih

/-- C5: for every Question whose QName is a dot-joined sequence of
nonempty ASCII labels of at most 63 bytes each (no dot bytes inside a
label) with total encoded size at most 255, and 16-bit QType and QClass,
unpacking the bytes produced by Question.Pack reconstructs the question
exactly: the QNAME is recovered in dotted form with a trailing root dot,
and QType and QClass are preserved. -/
theorem c5_question_roundtrip (L : List (List Nat)) (qt qc fuel : Nat)
    (hL : L ≠ [])
    (hlab : ∀ l ∈ L, l ≠ [] ∧ l.length ≤ 63 ∧ ∀ b ∈ l, b < 128 ∧ b ≠ 46)
    (hsize : (encodeLabels L).length ≤ 255)
    (hqt : qt < 65536) (hqc : qc < 65536)
    (hfuel : L.length + 1 ≤ fuel) :
    Question.unpack fuel (Question.pack ⟨[46].intercalate L, qt, qc⟩) 0 =
      .ok (⟨nameDots L, qt, qc⟩, (encodeLabels L).length + 4) ∧
    nameDots L = [46].intercalate L ++ [46] := by
  have hlab2 : ∀ l ∈ L, l ≠ [] ∧ l.length ≤ 63 :=
    fun l hl => ⟨(hlab l hl).1, (hlab l hl).2.1⟩
  have hsplit : ([46].intercalate L).splitOn 46 = L :=
    List.splitOn_intercalate L 46
      (fun l hl hin => ((hlab l hl).2.2 46 hin).2 rfl) hL
  have hpack : Question.pack ⟨[46].intercalate L, qt, qc⟩ =
      encodeLabels L ++ (u16bytes (qt % 65536) ++ u16bytes (qc % 65536)) := by
    simp [Question.pack, hsplit, packLabels_eq_encode L hlab2, List.append_assoc]
  have hloop := udnLoop_encode (u16bytes (qt % 65536) ++ u16bytes (qc % 65536))
    L [] [] 0 fuel hfuel hlab2
  simp only [List.nil_append, List.length_nil, Nat.zero_add] at hloop
  have hname : unpackDomainName fuel
      (encodeLabels L ++ (u16bytes (qt % 65536) ++ u16bytes (qc % 65536))) 0 =
      .ok (nameDots L, (encodeLabels L).length, (encodeLabels L).length) := by
    simp only [unpackDomainName, hloop]
    norm_num
  refine ⟨?_, nameDots_intercalate L hL⟩
  rw [hpack]
  simp only [Question.unpack, hname]
  rw [if_neg (by simp [u16bytes])]
  have g0 : (encodeLabels L ++ (u16bytes (qt % 65536) ++ u16bytes (qc % 65536))).getD
      ((encodeLabels L).length) 0 =
      (u16bytes (qt % 65536) ++ u16bytes (qc % 65536)).getD 0 0 := by
    simpa using getD_append_right (encodeLabels L) _ 0 0
  have g1 := getD_append_right (encodeLabels L)
    (u16bytes (qt % 65536) ++ u16bytes (qc % 65536)) 1 0
  have g2 := getD_append_right (encodeLabels L)
    (u16bytes (qt % 65536) ++ u16bytes (qc % 65536)) 2 0
  have g3 := getD_append_right (encodeLabels L)
    (u16bytes (qt % 65536) ++ u16bytes (qc % 65536)) 3 0
  rw [g0, g1, g2, g3]
  simp only [Res.ok.injEq, Prod.mk.injEq, Question.mk.injEq]
  refine ⟨⟨by trivial, ?_, ?_⟩, by trivial⟩
  · rw [show (u16bytes (qt % 65536) ++ u16bytes (qc % 65536)).getD 0 0 =
          (qt % 65536) / 256 % 256 by simp [u16bytes],
        show (u16bytes (qt % 65536) ++ u16bytes (qc % 65536)).getD 1 0 =
          (qt % 65536) % 256 by simp [u16bytes]]
    rw [merge16_split _ (by omega), Nat.mod_eq_of_lt hqt]
  · rw [show (u16bytes (qt % 65536) ++ u16bytes (qc % 65536)).getD 2 0 =
          (qc % 65536) / 256 % 256 by simp [u16bytes],
        show (u16bytes (qt % 65536) ++ u16bytes (qc % 65536)).getD 3 0 =
          (qc % 65536) % 256 by simp [u16bytes]]
    rw [merge16_split _ (by omega), Nat.mod_eq_of_lt hqc]

/-- Witness for C5: the name dan.co with QType A and QClass IN. -/
theorem c5_witness :
    Question.unpack 3
        (Question.pack ⟨[46].intercalate [[100, 97, 110], [99, 111]], 1, 1⟩) 0 =
      .ok (⟨nameDots [[100, 97, 110], [99, 111]], 1, 1⟩,
           (encodeLabels [[100, 97, 110], [99, 111]]).length + 4) ∧
    nameDots [[100, 97, 110], [99, 111]] =
      [46].intercalate [[100, 97, 110], [99, 111]] ++ [46] :=
  c5_question_roundtrip [[100, 97, 110], [99, 111]] 1 1 3 (by decide) (by decide)
    (by decide) (by decide) (by decide) (by decide)

end DNS
